import Mathlib

/-!
Shallow embedding of the kraken-auto-trade-bot liquidation pipeline.

Amounts are modelled as rationals, balance maps as association lists in
object-key order, and the exchange-facing effects (verified balance fetch,
order placement outcomes) as explicit oracles.  Each definition mirrors one
function of the JavaScript source.
-/

namespace KrakenBot

/-- Table of `convertAssetName` in src/utils/helpers.js: native Kraken code to
standard ticker, identity fallback. -/
def conversions : List (String × String) :=
  [("XETH", "ETH"), ("XXBT", "BTC"), ("XXDG", "DOGE"),
   ("ZUSD", "USD"), ("ZUSDT", "USDT"), ("ZUSDC", "USDC")]

/-- `convertAssetName(asset)` from src/utils/helpers.js. -/
def convertAssetName (asset : String) : String :=
  (conversions.lookup asset).getD asset

/-- Table of `getOriginalAssetName` in krakenService: standard ticker to native
Kraken code. -/
def reverseConversions : List (String × String) :=
  [("ETH", "XETH"), ("BTC", "XXBT"), ("DOGE", "XXDG"), ("USD", "ZUSD"),
   ("USDT", "USDT"), ("USDC", "USDC"), ("EUR", "ZEUR"), ("GBP", "ZGBP"),
   ("CAD", "ZCAD"), ("AUD", "ZAUD"), ("JPY", "ZJPY"), ("CHF", "CHF"),
   ("XRP", "XXRP"), ("XLM", "XXLM"), ("XMR", "XXMR"), ("LTC", "XLTC"),
   ("ETC", "XETC"), ("REP", "XREP"), ("MLN", "XMLN"), ("ZEC", "XZEC")]

/-- `getOriginalAssetName(asset)` from krakenService. -/
def getOriginalAssetName (asset : String) : String :=
  (reverseConversions.lookup asset).getD asset

/-- Table of `getStandardAssetName` in krakenService: native Kraken code to
standard ticker. -/
def standardConversions : List (String × String) :=
  [("XXDG", "DOGE"), ("XXBT", "BTC"), ("XETH", "ETH"), ("ZUSD", "USD"),
   ("ZEUR", "EUR"), ("ZGBP", "GBP"), ("ZCAD", "CAD"), ("ZAUD", "AUD"),
   ("ZJPY", "JPY"), ("XXRP", "XRP"), ("XXLM", "XLM"), ("XXMR", "XMR"),
   ("XLTC", "LTC"), ("XETC", "ETC"), ("XREP", "REP"), ("XMLN", "MLN"),
   ("XZEC", "ZEC")]

/-- `getStandardAssetName(krakenAsset)` from krakenService. -/
def getStandardAssetName (krakenAsset : String) : String :=
  (standardConversions.lookup krakenAsset).getD krakenAsset

/-- The static configuration and registry state of `KrakenService`:
the configured target fiat, the set of pair names present in `this.pairs`
after `fetchTradablePairs`, and the `this.minimumOrderSizes` map. -/
structure Env where
  targetFiat : String
  pairs : List String
  minimumOrderSizes : List (String × ℚ)

/-- The unit fraction 1/d as a rational in already-reduced form, so that the
minimum-size constants evaluate inside the kernel. -/
def qmin (d : ℕ) (h : d ≠ 0) : ℚ := ⟨1, d, h, Nat.coprime_one_left d⟩

/-- The hard-coded `assetSpecificMinimums` table inside `getMinimumOrderSize`:
0.0001 BTC, 0.001 ETH, 1 DOGE, 0.01 SOL, 1 XRP, 0.01 LTC, 1 ADA, 0.1 DOT,
0.1 LINK, 0.1 UNI. -/
def assetSpecificMinimums : List (String × ℚ) :=
  [("BTC", qmin 10000 (by decide)), ("ETH", qmin 1000 (by decide)),
   ("DOGE", 1), ("SOL", qmin 100 (by decide)),
   ("XRP", 1), ("LTC", qmin 100 (by decide)), ("ADA", 1),
   ("DOT", qmin 10 (by decide)),
   ("LINK", qmin 10 (by decide)), ("UNI", qmin 10 (by decide))]

/-- The fallback branch of `getMinimumOrderSize`: per-asset table, generic
floor 0.001 otherwise. -/
def fallbackMinimum (asset : String) : ℚ :=
  (assetSpecificMinimums.lookup asset).getD (qmin 1000 (by decide))

/-- `getMinimumOrderSize(asset)` from krakenService.  The JS guard
`if (storedMinimum)` is falsy both when the key is absent and when the stored
value is 0, so a stored 0 also falls through to the fallback cascade. -/
def getMinimumOrderSize (env : Env) (asset : String) : ℚ :=
  match env.minimumOrderSizes.lookup asset with
  | some m => if m = 0 then fallbackMinimum asset else m
  | none => fallbackMinimum asset

/-- The ordered candidate pair-name list tried by `hasMarketPair` and
`getMarketPair` in krakenService. -/
def candidatePairNames (env : Env) (asset : String) : List String :=
  let krakenAsset := getOriginalAssetName asset
  let krakenQuote := getOriginalAssetName env.targetFiat
  [krakenAsset ++ krakenQuote,
   asset ++ env.targetFiat,
   krakenAsset ++ env.targetFiat,
   asset ++ krakenQuote,
   asset ++ "USD",
   krakenAsset ++ "USD"]
  ++ (if asset = "DOGE" then ["XDGUSD", "XDGZUSD"] else [])
  ++ (if krakenAsset = "XXDG" then ["XDGUSD", "XDGZUSD"] else [])
  ++ (if asset = "ETH" then ["XETHUSD", "XETHZUSD"] else [])
  ++ (if krakenAsset = "XETH" then ["XETHUSD", "XETHZUSD"] else [])

/-- `hasMarketPair(asset)` from krakenService. -/
def hasMarketPair (env : Env) (asset : String) : Bool :=
  if asset = env.targetFiat then false
  else (candidatePairNames env asset).any (fun p => env.pairs.contains p)

/-- `getMarketPair(asset)` from krakenService. -/
def getMarketPair (env : Env) (asset : String) : Option String :=
  if asset = env.targetFiat then none
  else (candidatePairNames env asset).find? (fun p => env.pairs.contains p)

/-- The exchange-facing effects of one `processBalance` call:
`verifiedBalance` is the `totalBalance` returned by `checkBalanceForAsset`
(`none` when that lookup fails, in which case the code proceeds with the
original amount), and `sellOutcomes` says whether the n-th
`placeMarketSellOrder` attempt succeeds. -/
structure Oracle where
  verifiedBalance : Option ℚ
  sellOutcomes : List Bool

/-- The three attempt outcomes seen by the `maxRetries = 3` loop. -/
def attempts3 (orc : Oracle) : List Bool :=
  [orc.sellOutcomes.getD 0 false, orc.sellOutcomes.getD 1 false,
   orc.sellOutcomes.getD 2 false]

/-- The retry loop of `processBalance`: one `placeMarketSellOrder` request per
iteration until one succeeds.  Returns the final boolean result and the list
of (pair, volume) order requests actually submitted. -/
def sellLoop (pair : String) (vol : ℚ) : List Bool → Bool × List (String × ℚ)
  | [] => (false, [])
  | ok :: rest =>
    if ok then (true, [(pair, vol)])
    else
      let r := sellLoop pair vol rest
      (r.1, (pair, vol) :: r.2)

/-- Order placement section of `processBalance`: resolve the pair, then run
the bounded retry loop. -/
def placeWithRetry (env : Env) (orc : Oracle) (asset : String) (vol : ℚ) :
    Bool × List (String × ℚ) :=
  match getMarketPair env asset with
  | some pair => sellLoop pair vol (attempts3 orc)
  | none => (false, [])

/-- `processBalance(asset, totalAmount)` from autoSellService.  Returns the
boolean result together with the submitted order requests. -/
def processBalance (env : Env) (orc : Oracle) (asset : String) (amount : ℚ) :
    Bool × List (String × ℚ) :=
  if asset = env.targetFiat ∨ asset = convertAssetName env.targetFiat then
    (false, [])
  else if hasMarketPair env asset = false then (false, [])
  else
    let minimum := getMinimumOrderSize env asset
    if amount < minimum then (false, [])
    else
      match orc.verifiedBalance with
      | some actual =>
        let avail := min amount actual
        if avail < minimum then (false, [])
        else placeWithRetry env orc asset avail
      | none => placeWithRetry env orc asset amount

/-- One record of a v2 `balances` update message, as consumed by
`handleBalancesMessage` and forwarded as `updateInfo`. -/
structure UpdateRec where
  asset : String
  utype : String
  amount : ℚ
  balance : ℚ
deriving DecidableEq

/-- The mutable fields of `AutoSellService` touched by balance handling. -/
structure EngineState where
  currentBalances : List (String × ℚ)
  initialProcessingComplete : Bool
  isProcessingSnapshot : Bool
deriving DecidableEq

/-- The `updateInfo?.type` access of `processBalanceChange`. -/
def updType? (u : Option UpdateRec) : Option String :=
  u.map (fun r => r.utype)

/-- `processBalanceChange` from autoSellService, restricted to which
`processBalance` invocations it makes: snapshots invoke on every changed
positive balance, realtime updates only on increases that are not trade
echoes.  Returns the (asset, amount) arguments of the invocations. -/
def processBalanceChangeCalls (asset : String) (oldAmount newAmount : ℚ)
    (isSnapshot : Bool) (updateInfo : Option UpdateRec) : List (String × ℚ) :=
  if isSnapshot = true ∧ 0 < newAmount then
    [(convertAssetName asset, newAmount)]
  else if isSnapshot = false ∧ oldAmount < newAmount ∧ 0 < newAmount ∧
      updType? updateInfo ≠ some "trade" then
    [(convertAssetName asset, newAmount)]
  else []

/-- `handleBalanceUpdate(balances, isSnapshot, updateInfo)` from
autoSellService.  Returns the new engine state and the `processBalance`
invocations made during the call.  The reentrancy guard returns early when a
snapshot call arrives while `isProcessingSnapshot` is still set; the flag is
never cleared at the end of a snapshot call, only overwritten by the next
call. -/
def handleBalanceUpdate (s : EngineState) (balances : List (String × ℚ))
    (isSnapshot : Bool) (updateInfo : Option UpdateRec) :
    EngineState × List (String × ℚ) :=
  if s.isProcessingSnapshot = true ∧ isSnapshot = true then (s, [])
  else
    let calls := balances.foldl
      (fun acc entry =>
        let oldAmount := (s.currentBalances.lookup entry.1).getD 0
        let newAmount := entry.2
        if oldAmount = newAmount then acc
        else acc ++ processBalanceChangeCalls entry.1 oldAmount newAmount
          isSnapshot updateInfo)
      []
    (⟨balances, s.initialProcessingComplete, isSnapshot⟩, calls)

/-- Processing of one record of a `balances` update message, with the event
handlers wired as in startup.js: `handleBalancesMessage` first emits
`balanceUpdate` with the single-asset map (feeding `handleBalanceUpdate`),
then emits `deposit` for positive deposit records (feeding `handleDeposit`,
which calls `processBalance(convertAssetName(asset), amount)`). -/
def handleUpdateEvent (s : EngineState) (u : UpdateRec) :
    EngineState × List (String × ℚ) :=
  let r1 := handleBalanceUpdate s [(u.asset, u.balance)] false (some u)
  let depositCalls :=
    if u.utype = "deposit" ∧ 0 < u.amount then
      [(convertAssetName u.asset, u.amount)]
    else []
  (r1.1, r1.2 ++ depositCalls)

/-!
Rate limiters.  Time is in integer milliseconds, idealized so that a sleep of
d ms ends exactly d ms later.  Calls are sequential: each call arrives no
earlier than the admission of the previous one, which trace runners encode by
taking the next arrival as the previous admission plus a natural-number gap.
-/

/-- `RateLimiter.waitForSlot` from src/utils/helpers.js, the limiter wired
into krakenService.  Input: recorded request times and the arrival time.
Output: the new recorded list and the admission time (when the call returns).
The recorded entry is the arrival time read before any sleeping, exactly as
the JS pushes the `now` captured at entry. -/
def waitForSlotH (reqs : List ℤ) (now : ℤ) : List ℤ × ℤ :=
  let reqs2 := reqs.filter (fun r => now - r < 1000)
  let admission :=
    if 15 ≤ reqs2.length then
      let waitTime := 1000 - (now - reqs2.headD 0)
      if 0 < waitTime then now + waitTime else now
    else now
  (reqs2 ++ [now], admission)

/-- `rateLimiter.waitForSlot` from the legacy monolithic script, which adds a
minimum 100 ms spacing against `lastRequestTime` after the window check.
State is (recorded times, lastRequestTime); the admission time is also the new
`lastRequestTime`, since the JS assigns `Date.now()` after all sleeps. -/
def waitForSlot2 (reqs : List ℤ) (last : ℤ) (now : ℤ) :
    (List ℤ × ℤ) × ℤ :=
  let reqs2 := reqs.filter (fun r => now - r < 1000)
  let afterWindow :=
    if 15 ≤ reqs2.length then
      let waitTime := 1000 - (now - reqs2.headD 0)
      if 0 < waitTime then now + waitTime else now
    else now
  let admission :=
    if now - last < 100 then afterWindow + (100 - (now - last))
    else afterWindow
  ((reqs2 ++ [now], admission), admission)

/-- Sequential trace of the helpers limiter: each gap is added to the previous
admission time to form the next arrival.  Returns the admission times. -/
def runLimiterH (reqs : List ℤ) (lastAdm : ℤ) : List ℕ → List ℤ
  | [] => []
  | g :: gs =>
    let now := lastAdm + (g : ℤ)
    let r := waitForSlotH reqs now
    r.2 :: runLimiterH r.1 r.2 gs

/-- Sequential trace of the legacy limiter.  Returns the admission times. -/
def runLimiter2 (reqs : List ℤ) (last : ℤ) : List ℕ → List ℤ
  | [] => []
  | g :: gs =>
    let now := last + (g : ℤ)
    let r := waitForSlot2 reqs last now
    r.2 :: runLimiter2 r.1.1 r.1.2 gs

/-!
Reconnection supervisor.  The close handler of `startPrivateWebSocket` and the
tasks it schedules are modelled as a transition system.  A state counts the
sockets able to emit a future close event (at most one exists at a time in the
post-startup lifecycle), the `isReconnecting` flag, the attempt counter, and
the two kinds of pending timers: the close-scheduled task (which re-obtains a
token) and the inner retry task scheduled when that fails (which reuses the
captured stale token and the delay computed before the failure).
-/

/-- `config.websocket.baseReconnectDelay` (ms). -/
def wsBaseDelay : ℤ := 5000

/-- `config.websocket.maxReconnectAttempts`. -/
def wsMaxAttempts : ℕ := 10

/-- Mutable reconnection state of `WebSocketService`. -/
structure WsState where
  isReconnecting : Bool
  reconnectAttempts : ℕ
  pendingClose : Option ℤ
  pendingRetry : Option ℤ
  openSockets : ℕ
deriving DecidableEq

/-- External events driving the reconnection logic: a socket close event, the
close-scheduled task firing (with or without obtaining a fresh token and
opening the socket), and the inner retry task firing (which always constructs
a socket from the stale token). -/
inductive WsEvent where
  | closeEvt : WsEvent
  | fireCloseTask : Bool → WsEvent
  | fireRetryTask : WsEvent
deriving DecidableEq

/-- One step of the reconnection logic; events whose trigger does not exist in
the state (no socket to close, no pending task) leave the state unchanged. -/
def wsStep (s : WsState) : WsEvent → WsState
  | WsEvent.closeEvt =>
    if s.openSockets = 0 then s
    else
      let s1 := { s with openSockets := s.openSockets - 1 }
      if s1.isReconnecting then s1
      else
        { s1 with isReconnecting := true,
                  pendingClose :=
                    some (min (wsBaseDelay * 2 ^ s1.reconnectAttempts) 60000) }
  | WsEvent.fireCloseTask ok =>
    match s.pendingClose with
    | none => s
    | some d =>
      if ok then
        { s with pendingClose := none, reconnectAttempts := 0,
                 isReconnecting := false, openSockets := s.openSockets + 1 }
      else
        let n := s.reconnectAttempts + 1
        if n < wsMaxAttempts then
          { s with pendingClose := none, reconnectAttempts := n,
                   pendingRetry := some d, isReconnecting := false }
        else
          { s with pendingClose := none, reconnectAttempts := n,
                   isReconnecting := false }
  | WsEvent.fireRetryTask =>
    match s.pendingRetry with
    | none => s
    | some _ =>
      { s with pendingRetry := none, isReconnecting := false,
               openSockets := s.openSockets + 1 }

/-- State right after startup: one live socket, no pending work. -/
def wsInit : WsState := ⟨false, 0, none, none, 1⟩

/-- Run a sequence of events. -/
def wsSteps (s : WsState) (evs : List WsEvent) : WsState :=
  evs.foldl wsStep s

/-!
Input validation and the batch trade endpoint.
-/

/-- One character class of the txid regex `[A-Za-z0-9-]`. -/
def txidCharOk (c : Char) : Bool :=
  decide ( 'A' ≤ c ∧ c ≤ 'Z' ) || decide ( 'a' ≤ c ∧ c ≤ 'z' ) ||
  decide ( '0' ≤ c ∧ c ≤ '9' ) || decide (c = '-' )

/-- `validateTxid(txid)` from src/utils/validation.js, on string inputs.  An
empty string is falsy in JS and hits the required-parameter branch. -/
def validateTxid (txid : String) : Except String String :=
  if txid = "" then
    Except.error "Transaction ID is required and must be a string"
  else if (txid.toList.all txidCharOk) = false then
    Except.error "Invalid transaction ID format (only letters, numbers, and hyphens allowed)"
  else if 50 < txid.length ∨ txid.length < 10 then
    Except.error "Transaction ID length is invalid (must be between 10 and 50 characters)"
  else Except.ok txid

/-- The indexed element loop of `validateTxidArray`. -/
def validateEach : ℕ → List String → Except String (List String)
  | _, [] => Except.ok []
  | i, t :: ts =>
    match validateTxid t with
    | Except.ok v =>
      match validateEach (i + 1) ts with
      | Except.ok vs => Except.ok (v :: vs)
      | Except.error e => Except.error e
    | Except.error e =>
      Except.error ("Invalid transaction ID at index " ++ toString i ++ ": " ++ e)

/-- `validateTxidArray(txids)` from src/utils/validation.js; `none` stands for
a request body whose `txids` is not an array. -/
def validateTxidArray (body : Option (List String)) :
    Except String (List String) :=
  match body with
  | none => Except.error "Transaction IDs must be provided as an array"
  | some ts =>
    if ts.length = 0 then
      Except.error "Transaction IDs array cannot be empty"
    else if 20 < ts.length then
      Except.error "Maximum 20 transaction IDs per request"
    else validateEach 0 ts

/-- Whether `pat` occurs as a contiguous sublist of `l`; the JS
`String.prototype.includes`, which is case sensitive. -/
def subListOf (pat : List Char) : List Char → Bool
  | [] => pat.isEmpty
  | c :: tl => pat.isPrefixOf (c :: tl) || subListOf pat tl

/-- `msg.includes(pat)` for the error dispatch of the trade controller. -/
def containsSub (s pat : String) : Bool :=
  subListOf pat.toList s.toList

/-- Per-id outcome stored in the batch result map. -/
inductive IdResult where
  | data : IdResult
  | notFound : IdResult
  | failed : String → IdResult
deriving DecidableEq

/-- HTTP response of the batch endpoint. -/
inductive HttpResp where
  | ok : List (String × IdResult) → HttpResp
  | badRequest : String → HttpResp
  | serverError : String → HttpResp
deriving DecidableEq

/-- The per-id body of the batch loop: a thrown lookup is caught and recorded,
a missing order becomes a not-found entry. -/
def batchEntry (lookup : String → Except String Bool) (t : String) : IdResult :=
  match lookup t with
  | Except.ok true => IdResult.data
  | Except.ok false => IdResult.notFound
  | Except.error m => IdResult.failed m

/-- `getBatchTrades` from src/controllers/tradeController.js: validate, then
query each id best-effort; a validation failure is classified as a 400 only
when its message contains one of the literal substrings checked by the catch
block, otherwise it falls through to the generic 500 handler. -/
def getBatchTrades (lookup : String → Except String Bool)
    (body : Option (List String)) : HttpResp :=
  match validateTxidArray body with
  | Except.ok ts => HttpResp.ok (ts.map (fun t => (t, batchEntry lookup t)))
  | Except.error msg =>
    if containsSub msg "Transaction ID" || containsSub msg "Invalid" ||
        containsSub msg "array" then
      HttpResp.badRequest msg
    else HttpResp.serverError "Failed to process batch request"

/-!
Inductive invariant of the reconnection transition system, and concrete
instances used to evaluate the model.
-/

/-- Invariant of the reconnection system: at most one socket exists, the
`isReconnecting` flag tracks exactly the close-scheduled task, and a pending
task of either kind excludes the other and any live socket. -/
def WsInv (s : WsState) : Prop :=
  s.openSockets ≤ 1 ∧
  s.isReconnecting = s.pendingClose.isSome ∧
  (s.pendingClose.isSome = true → s.openSockets = 0 ∧ s.pendingRetry = none) ∧
  (s.pendingRetry.isSome = true → s.openSockets = 0 ∧ s.pendingClose = none)

/-- Registry with the configured fiat in standard form and a pair whose name
matches the first candidate generated for the native fiat code. -/
def envZ : Env := ⟨"USD", ["ZUSDZUSD"], []⟩

/-- Oracle reporting a verified balance of 100 and a first placement attempt
that succeeds. -/
def orcZ : Oracle := ⟨some 100, [true]⟩

/-- Registry for the minimum-order-size witness: an ETH pair with a stored
minimum of 1. -/
def c3Env : Env := ⟨"USD", ["XETHZUSD"], [("ETH", 1)]⟩

/-- Engine state after startup: snapshot processed, reported balances for USD
and ETH. -/
def c1State : EngineState := ⟨[("USD", 100), ("ETH", 1)], true, true⟩

/-- A deposit update for ETH: delta 2 on a previous balance of 1, new total 3. -/
def c1Event : UpdateRec := ⟨"ETH", "deposit", 2, 3⟩

/-- A trade-settlement update for ETH: delta -1/5, new total 0. -/
def c4Event : UpdateRec := ⟨"ETH", "trade", -1, 0⟩

/-- Fresh engine state, before any snapshot. -/
def c6Init : EngineState := ⟨[], false, false⟩

/-- A batch request of 21 syntactically valid transaction ids. -/
def txid21 : List String := List.replicate 21 "ABCDEFGHIJ"

/-- Exchange stub: every id resolves to an order. -/
def lookupOk : String → Except String Bool := fun _ => Except.ok true

/-- Exchange stub: every lookup throws. -/
def lookupBoom : String → Except String Bool := fun _ => Except.error "boom"

/-!
Theorems.
-/

/-- Every order request emitted by the retry loop carries the volume the loop
was entered with. -/
theorem sellLoop_vol_mem (pair : String) (vol : ℚ) :
    ∀ (outs : List Bool) (p : String) (v : ℚ),
      (p, v) ∈ (sellLoop pair vol outs).2 → v = vol := by
  intro outs
  induction outs with
  | nil => intro p v hv; simp [sellLoop] at hv
  | cons ok rest ih =>
    intro p v hv
    cases ok with
    | true => simp [sellLoop] at hv; exact hv.2
    | false =>
      simp [sellLoop] at hv
      rcases hv with h1 | h2
      · exact h1.2
      · exact ih p v h2

/-- Every order request emitted by `placeWithRetry` carries the gated
volume. -/
theorem placeWithRetry_vol_mem (env : Env) (orc : Oracle) (asset : String)
    (vol : ℚ) (p : String) (v : ℚ)
    (hv : (p, v) ∈ (placeWithRetry env orc asset vol).2) : v = vol := by
  unfold placeWithRetry at hv
  cases hpair : getMarketPair env asset with
  | none => rw [hpair] at hv; simp at hv
  | some pr => rw [hpair] at hv; exact sellLoop_vol_mem pr vol (attempts3 orc) p v hv

/-- C9: the asset-code mappings round-trip: standardizing the nativization is
the identity on the keys of the `getOriginalAssetName` table, and nativizing
the standardization is the identity on the keys of the `getStandardAssetName`
table. -/
theorem asset_name_roundtrip :
    (∀ x ∈ reverseConversions.map Prod.fst,
      getStandardAssetName (getOriginalAssetName x) = x) ∧
    (∀ y ∈ standardConversions.map Prod.fst,
      getOriginalAssetName (getStandardAssetName y) = y) := by
  decide

/-- Witness for C9 at the standard code ETH and the native code XXBT. -/
theorem asset_name_roundtrip_witness :
    getStandardAssetName (getOriginalAssetName "ETH") = "ETH" ∧
    getOriginalAssetName (getStandardAssetName "XXBT") = "XXBT" :=
  ⟨asset_name_roundtrip.1 "ETH" (by decide),
   asset_name_roundtrip.2 "XXBT" (by decide)⟩

/-- C2 counterexample: with target fiat configured as USD, `processBalance`
called on ZUSD, the native form of the target fiat, passes the fiat gate,
and with a registry listing the candidate pair name ZUSDZUSD it submits a
market sell order and returns true, contradicting the claim that the target
fiat in native form always yields false with no order. -/
theorem native_fiat_not_gated_counterexample :
    getOriginalAssetName envZ.targetFiat = "ZUSD" ∧
    processBalance envZ orcZ "ZUSD" 100 = (true, [("ZUSDZUSD", 100)]) := by
  decide

/-- C2 amended: `processBalance` returns false and submits nothing whenever
the asset equals the configured target fiat string or its
`convertAssetName` image; the wired call sites standardize the asset through
`convertAssetName` first, so on those paths both forms of the fiat are
rejected, but the raw native form is not covered by this gate. -/
theorem fiat_gate_rejects_configured_and_standardized (env : Env)
    (orc : Oracle) (a : String) (x : ℚ)
    (h : a = env.targetFiat ∨ a = convertAssetName env.targetFiat) :
    processBalance env orc a x = (false, []) := by
  unfold processBalance
  rw [if_pos h]

/-- Witness for the amended C2 at the configured fiat itself. -/
theorem fiat_gate_rejects_witness :
    processBalance envZ orcZ "USD" 5 = (false, []) :=
  fiat_gate_rejects_configured_and_standardized envZ orcZ "USD" 5 (Or.inl rfl)

/-- C3: every order request submitted by `processBalance` has volume at least
`getMinimumOrderSize` of the asset; a requested amount below the resolved
minimum, or a re-verified available amount below it, yields false and no
order; and `getMinimumOrderSize` resolves by registry entry, then the
hard-coded table, then the generic floor 0.001. -/
theorem orders_respect_minimum_order_size (env : Env) (orc : Oracle)
    (asset : String) (amount : ℚ) :
    (∀ p v, (p, v) ∈ (processBalance env orc asset amount).2 →
      getMinimumOrderSize env asset ≤ v) ∧
    (amount < getMinimumOrderSize env asset →
      processBalance env orc asset amount = (false, [])) ∧
    (∀ t, orc.verifiedBalance = some t →
      min amount t < getMinimumOrderSize env asset →
      processBalance env orc asset amount = (false, [])) ∧
    (env.minimumOrderSizes.lookup asset = none →
      getMinimumOrderSize env asset = fallbackMinimum asset) ∧
    (∀ m, env.minimumOrderSizes.lookup asset = some m → m ≠ 0 →
      getMinimumOrderSize env asset = m) := by
  refine ⟨?_, ?_, ?_, ?_, ?_⟩
  · intro p v hv
    cases hb : orc.verifiedBalance with
    | none =>
      simp only [processBalance, hb] at hv
      split_ifs at hv with h1 h2 h3
      · simp at hv
      · simp at hv
      · simp at hv
      · rw [placeWithRetry_vol_mem env orc asset amount p v hv]
        exact not_lt.mp h3
    | some t =>
      simp only [processBalance, hb] at hv
      split_ifs at hv with h1 h2 h3 h4
      · simp at hv
      · simp at hv
      · simp at hv
      · simp at hv
      · rw [placeWithRetry_vol_mem env orc asset (min amount t) p v hv]
        exact not_lt.mp h4
  · intro hlt
    cases hb : orc.verifiedBalance with
    | none =>
      simp only [processBalance, hb]
      split_ifs <;> rfl
    | some t =>
      simp only [processBalance, hb]
      split_ifs <;> rfl
  · intro t ht hlt
    simp only [processBalance, ht]
    split_ifs <;> rfl
  · intro h
    unfold getMinimumOrderSize
    rw [h]
  · intro m hm hne
    unfold getMinimumOrderSize
    rw [hm]
    exact if_neg hne

/-- Witness for C3: an ETH amount of 1/2 against a stored minimum of 1
produces no order. -/
theorem orders_respect_minimum_witness :
    processBalance c3Env orcZ "ETH" 0 = (false, []) :=
  (orders_respect_minimum_order_size c3Env orcZ "ETH" 0).2.1 (by decide)

/-- C1: processing one positive deposit update through the wired handlers
invokes `processBalance` twice, not once: the balance-update handler calls it
with the live total (3) and the deposit handler calls it again with the delta
(2), so the code violates the exactly-one-sell-attempt claim. -/
theorem deposit_event_invokes_processBalance_twice :
    (handleUpdateEvent c1State c1Event).2 = [("ETH", 3), ("ETH", 2)] ∧
    ((handleUpdateEvent c1State c1Event).2.length = 1 → False) := by
  decide

/-- C4: an update record of type trade makes no `processBalance` invocation,
regardless of the sign or size of its amount; the handlers only replace the
reported balance map and leave the initial-processing flag alone. -/
theorem trade_update_never_sells (s : EngineState) (u : UpdateRec)
    (h : u.utype = "trade") :
    (handleUpdateEvent s u).2 = [] ∧
    (handleUpdateEvent s u).1.currentBalances = [(u.asset, u.balance)] ∧
    (handleUpdateEvent s u).1.initialProcessingComplete
      = s.initialProcessingComplete := by
  simp [handleUpdateEvent, handleBalanceUpdate, processBalanceChangeCalls,
    updType?, h]

/-- Witness for C4 at a concrete trade echo with negative delta. -/
theorem trade_update_never_sells_witness :
    (handleUpdateEvent c1State c4Event).2 = [] ∧
    (handleUpdateEvent c1State c4Event).1.currentBalances
      = [(c4Event.asset, c4Event.balance)] ∧
    (handleUpdateEvent c1State c4Event).1.initialProcessingComplete
      = c1State.initialProcessingComplete :=
  trade_update_never_sells c1State c4Event rfl

/-- C5: replaying the same snapshot twice in a row makes zero additional
`processBalance` invocations: the second call is short-circuited by the
snapshot-reentrancy guard, which is still set from the first call. -/
theorem snapshot_replay_idempotent (s : EngineState)
    (m : List (String × ℚ)) :
    (handleBalanceUpdate (handleBalanceUpdate s m true none).1 m true
      none).2 = [] := by
  cases hs : s.isProcessingSnapshot <;>
    simp [handleBalanceUpdate, hs]

/-- C6 counterexample: a snapshot call that arrives while the reentrancy
guard is still set from a previous snapshot is skipped entirely, so
`currentBalances` keeps the old map instead of the input map. -/
theorem skipped_snapshot_keeps_old_balances :
    (handleBalanceUpdate
      (handleBalanceUpdate c6Init [("AAA", 1)] true none).1
      [("BBB", 2)] true none).1.currentBalances ≠ [("BBB", 2)] := by
  decide

/-- C6 amended: every call that is not short-circuited by the
snapshot-reentrancy guard replaces `currentBalances` with exactly the input
map, dropping every asset not present in it; guarded snapshot calls leave the
state untouched. -/
theorem unskipped_update_replaces_balances (s : EngineState)
    (m : List (String × ℚ)) (isSnap : Bool) (u : Option UpdateRec)
    (h : ¬ (s.isProcessingSnapshot = true ∧ isSnap = true)) :
    (handleBalanceUpdate s m isSnap u).1.currentBalances = m := by
  unfold handleBalanceUpdate
  rw [if_neg h]

/-- Witness for the amended C6 at a fresh state and a snapshot map. -/
theorem unskipped_update_replaces_balances_witness :
    (handleBalanceUpdate c6Init [("AAA", 1)] true
      none).1.currentBalances = [("AAA", 1)] :=
  unskipped_update_replaces_balances c6Init [("AAA", 1)] true none
    (by decide)

/-- C10: a batch body of 21 syntactically valid transaction ids is rejected,
but with a 500 response instead of the claimed 400: the validation message
for the over-limit case matches none of the case-sensitive substrings the
catch block looks for.  For an accepted array a throwing lookup is recorded
per id and the request still succeeds. -/
theorem batch_over_limit_returns_500 :
    getBatchTrades lookupOk (some txid21) =
      HttpResp.serverError "Failed to process batch request" ∧
    getBatchTrades lookupBoom (some ["ABCDEFGHIJ"]) =
      HttpResp.ok [("ABCDEFGHIJ", IdResult.failed "boom")] ∧
    getBatchTrades lookupOk none =
      HttpResp.badRequest "Transaction IDs must be provided as an array" := by
  refine ⟨?_, ?_, ?_⟩ <;> decide

/-- One legacy-limiter call admitted at least 100 ms after the previous
admission, provided it arrives no earlier than that admission. -/
theorem waitForSlot2_spacing (reqs : List ℤ) (last : ℤ) (g : ℕ) :
    last + 100 ≤ (waitForSlot2 reqs last (last + (g : ℤ))).2 := by
  unfold waitForSlot2
  dsimp only
  split_ifs <;> omega

/-- The admission returned by the legacy limiter is also the stored
`lastRequestTime`. -/
theorem waitForSlot2_last_eq (reqs : List ℤ) (last now : ℤ) :
    (waitForSlot2 reqs last now).1.2 = (waitForSlot2 reqs last now).2 := rfl

/-- Admissions of a sequential legacy-limiter trace form a chain spaced by at
least 100 ms, starting from the initial `lastRequestTime`. -/
theorem runLimiter2_chain (gaps : List ℕ) :
    ∀ (reqs : List ℤ) (last : ℤ),
      List.Chain (fun a b => a + 100 ≤ b) last (runLimiter2 reqs last gaps) := by
  induction gaps with
  | nil => intro reqs last; exact List.Chain.nil
  | cons g gs ih =>
    intro reqs last
    exact List.Chain.cons (waitForSlot2_spacing reqs last g)
      (ih (waitForSlot2 reqs last (last + (g : ℤ))).1.1
        (waitForSlot2 reqs last (last + (g : ℤ))).1.2)

/-- Adjacent admissions of a sequential legacy-limiter trace are at least
100 ms apart. -/
theorem runLimiter2_chain' (reqs : List ℤ) (last : ℤ) (gaps : List ℕ) :
    List.Chain' (fun a b => a + 100 ≤ b) (runLimiter2 reqs last gaps) := by
  have h := runLimiter2_chain gaps reqs last
  cases hr : runLimiter2 reqs last gaps with
  | nil => exact List.chain'_nil
  | cons a l =>
    rw [hr] at h
    cases h with
    | cons hR hc => exact hc

/-- A list pairwise increasing by at least 100 and contained in an interval
of width 100 n has at most n + 1 elements. -/
theorem pairwise_interval_length :
    ∀ (l : List ℤ) (n : ℕ) (lo : ℤ),
      List.Pairwise (fun a b => a + 100 ≤ b) l →
      (∀ x ∈ l, lo ≤ x ∧ x ≤ lo + 100 * (n : ℤ)) →
      l.length ≤ n + 1 := by
  intro l
  induction l with
  | nil => intro n lo _ _; simp
  | cons a tl ih =>
    intro n lo hp hb
    rcases List.pairwise_cons.mp hp with ⟨hstep, hp2⟩
    cases n with
    | zero =>
      cases tl with
      | nil => simp
      | cons b tl2 =>
        have h1 := hstep b (by simp)
        have h2 := (hb a (by simp)).1
        have h3 := (hb b (by simp)).2
        exfalso
        simp only [Nat.cast_zero, mul_zero, add_zero] at h3
        omega
    | succ m =>
      have hub : ∀ x ∈ tl, lo + 100 ≤ x ∧ x ≤ lo + 100 + 100 * (m : ℤ) := by
        intro x hx
        have h1 := hstep x hx
        have h2 := (hb x (List.mem_cons_of_mem a hx)).2
        have h3 := (hb a (by simp)).1
        have hcast : ((m + 1 : ℕ) : ℤ) = (m : ℤ) + 1 := by push_cast; ring
        rw [hcast] at h2
        constructor
        · omega
        · nlinarith
      have hlen := ih m (lo + 100) hp2 hub
      simp only [List.length_cons]
      omega

/-- C7 counterexample: the rate limiter wired into the REST client (the
helpers `RateLimiter`) admits two back-to-back calls at the same instant:
for a trace with two immediate arrivals the admission times are 0 and 0, so
consecutive admissions are not separated by 100 ms as the claim requires. -/
theorem wired_limiter_zero_spacing_counterexample :
    runLimiterH [] 0 [0, 0] = [0, 0] ∧
    ¬ List.Chain' (fun a b : ℤ => a + 100 ≤ b) (runLimiterH [] 0 [0, 0]) := by
  constructor
  · decide
  · intro hch
    have h0 : runLimiterH [] 0 [0, 0] = [0, 0] := by decide
    rw [h0] at hch
    have h1 := (List.chain'_cons.mp hch).1
    omega

/-- C7 amended: the legacy limiter (the variant that tracks
`lastRequestTime`) keeps consecutive admissions at least 100 ms apart on
every sequential trace, and consequently admits at most 11, in particular at
most 15, calls inside any closed 1000 ms window; the limiter wired into the
REST client enforces only the window check on recorded arrival times and no
inter-call spacing. -/
theorem legacy_limiter_spacing_and_window :
    (∀ (reqs : List ℤ) (last : ℤ) (gaps : List ℕ),
      List.Chain' (fun a b => a + 100 ≤ b) (runLimiter2 reqs last gaps)) ∧
    (∀ (reqs : List ℤ) (last t : ℤ) (gaps : List ℕ),
      ((runLimiter2 reqs last gaps).filter
        (fun a => decide (t ≤ a ∧ a ≤ t + 1000))).length ≤ 15) := by
  constructor
  · intro reqs last gaps
    exact runLimiter2_chain' reqs last gaps
  · intro reqs last t gaps
    haveI : IsTrans ℤ (fun a b => a + 100 ≤ b) :=
      ⟨fun a b c h1 h2 => by omega⟩
    have hp : List.Pairwise (fun a b => a + 100 ≤ b)
        (runLimiter2 reqs last gaps) :=
      List.chain'_iff_pairwise.mp (runLimiter2_chain' reqs last gaps)
    have hf := hp.filter (fun a => decide (t ≤ a ∧ a ≤ t + 1000))
    have hb : ∀ x ∈ (runLimiter2 reqs last gaps).filter
        (fun a => decide (t ≤ a ∧ a ≤ t + 1000)),
        t ≤ x ∧ x ≤ t + 100 * ((10 : ℕ) : ℤ) := by
      intro x hx
      have hpred := of_decide_eq_true (List.mem_filter.mp hx).2
      constructor
      · exact hpred.1
      · have := hpred.2
        norm_num
        omega
    have hlen := pairwise_interval_length _ 10 t hf hb
    omega

/-- The reconnection invariant is preserved by every event. -/
theorem wsStep_inv : ∀ (s : WsState) (e : WsEvent), WsInv s → WsInv (wsStep s e) := by
  rintro ⟨flag, n, pc, pr, sk⟩ e ⟨h1, h2, h3, h4⟩
  dsimp only at h1 h2 h3 h4
  cases e with
  | closeEvt =>
    by_cases hs0 : sk = 0
    · subst hs0
      exact ⟨h1, h2, h3, h4⟩
    · have hpc : pc = none := by
        cases pc with
        | none => rfl
        | some d => exact absurd (h3 rfl).1 hs0
      have hpr : pr = none := by
        cases pr with
        | none => rfl
        | some d => exact absurd (h4 rfl).1 hs0
      subst hpc
      subst hpr
      have hflag : flag = false := by simpa using h2
      subst hflag
      have hstep : wsStep ⟨false, n, none, none, sk⟩ WsEvent.closeEvt =
          ⟨true, n, some (min (wsBaseDelay * 2 ^ n) 60000), none, sk - 1⟩ := by
        simp [wsStep, hs0]
      rw [hstep]
      refine ⟨by dsimp only; omega, rfl, ?_, ?_⟩
      · intro _
        exact ⟨by dsimp only; omega, rfl⟩
      · intro hx
        simp at hx
  | fireCloseTask ok =>
    cases pc with
    | none => exact ⟨h1, h2, h3, h4⟩
    | some d =>
      obtain ⟨hsk, hpr⟩ := h3 rfl
      subst hsk
      subst hpr
      have hflag : flag = true := by simpa using h2
      subst hflag
      cases ok with
      | true =>
        have hstep : wsStep ⟨true, n, some d, none, 0⟩
            (WsEvent.fireCloseTask true) = ⟨false, 0, none, none, 1⟩ := by
          simp [wsStep]
        rw [hstep]
        refine ⟨by decide, rfl, ?_, ?_⟩ <;> intro hx <;> simp at hx
      | false =>
        by_cases hn : n + 1 < wsMaxAttempts
        · have hstep : wsStep ⟨true, n, some d, none, 0⟩
              (WsEvent.fireCloseTask false) =
              ⟨false, n + 1, none, some d, 0⟩ := by
            simp [wsStep, hn]
          rw [hstep]
          refine ⟨by dsimp only; omega, rfl, ?_, ?_⟩
          · intro hx
            simp at hx
          · intro _
            exact ⟨rfl, rfl⟩
        · have hstep : wsStep ⟨true, n, some d, none, 0⟩
              (WsEvent.fireCloseTask false) =
              ⟨false, n + 1, none, none, 0⟩ := by
            simp [wsStep, hn]
          rw [hstep]
          refine ⟨by dsimp only; omega, rfl, ?_, ?_⟩ <;> intro hx <;> simp at hx
  | fireRetryTask =>
    cases pr with
    | none => exact ⟨h1, h2, h3, h4⟩
    | some d =>
      obtain ⟨hsk, hpc⟩ := h4 rfl
      subst hsk
      subst hpc
      have hflag : flag = false := by simpa using h2
      subst hflag
      have hstep : wsStep ⟨false, n, none, some d, 0⟩ WsEvent.fireRetryTask =
          ⟨false, n, none, none, 1⟩ := by
        simp [wsStep]
      rw [hstep]
      refine ⟨by dsimp only; omega, rfl, ?_, ?_⟩ <;> intro hx <;> simp at hx

/-- The reconnection invariant is preserved by every event sequence. -/
theorem wsSteps_inv (evs : List WsEvent) :
    ∀ s, WsInv s → WsInv (wsSteps s evs) := by
  induction evs with
  | nil => intro s h; exact h
  | cons e es ih =>
    intro s h
    exact ih (wsStep s e) (wsStep_inv s e h)

/-- The startup state satisfies the reconnection invariant. -/
theorem wsInit_inv : WsInv wsInit := by
  refine ⟨by decide, rfl, ?_, ?_⟩ <;> intro h <;> simp [wsInit] at h

/-- C8 counterexample: the task scheduled right after the first failed
reconnection attempt waits the stale delay of 5000 ms computed before the
failure, not min(base × 2^1, 60000) = 10000 ms as the claim requires; and
when that retry task then reconnects successfully, the attempt counter is not
reset to zero. -/
theorem retry_task_stale_delay_counterexample :
    (wsSteps wsInit [WsEvent.closeEvt, WsEvent.fireCloseTask false]).reconnectAttempts = 1 ∧
    (wsSteps wsInit [WsEvent.closeEvt, WsEvent.fireCloseTask false]).pendingRetry = some 5000 ∧
    (5000 : ℤ) ≠ min (wsBaseDelay * 2 ^ 1) 60000 ∧
    (wsSteps wsInit [WsEvent.closeEvt, WsEvent.fireCloseTask false,
      WsEvent.fireRetryTask]).openSockets = 1 ∧
    (wsSteps wsInit [WsEvent.closeEvt, WsEvent.fireCloseTask false,
      WsEvent.fireRetryTask]).reconnectAttempts ≠ 0 := by
  decide

/-- C8 amended: along every event sequence from startup at most one
reconnection task is pending and at most one socket exists; a close event
seen with the flag clear schedules one task with delay
min(base × 2^attempts, 60000); a successful close-scheduled task resets the
attempt counter; the retry task scheduled when an attempt fails reuses the
delay computed before that failure; when the attempt counter would reach the
maximum, the failing task schedules nothing and the system reaches a state no
event can change. -/
theorem reconnection_discipline_amended :
    (∀ evs : List WsEvent, WsInv (wsSteps wsInit evs)) ∧
    (∀ s : WsState, s.isReconnecting = false → s.openSockets ≠ 0 →
      (wsStep s WsEvent.closeEvt).pendingClose =
        some (min (wsBaseDelay * 2 ^ s.reconnectAttempts) 60000)) ∧
    (∀ (s : WsState) (d : ℤ), s.pendingClose = some d →
      (wsStep s (WsEvent.fireCloseTask true)).reconnectAttempts = 0) ∧
    (∀ (s : WsState) (d : ℤ), s.pendingClose = some d →
      s.pendingRetry = none →
      (wsStep s (WsEvent.fireCloseTask false)).pendingRetry =
        (if s.reconnectAttempts + 1 < wsMaxAttempts then some d else none)) ∧
    (∀ (s : WsState) (d : ℤ), s.pendingClose = some d →
      s.pendingRetry = none → s.openSockets = 0 →
      s.reconnectAttempts + 1 = wsMaxAttempts →
      (wsStep s (WsEvent.fireCloseTask false)).pendingClose = none ∧
      (wsStep s (WsEvent.fireCloseTask false)).pendingRetry = none ∧
      (wsStep s (WsEvent.fireCloseTask false)).openSockets = 0) ∧
    (∀ s : WsState, s.openSockets = 0 → s.pendingClose = none →
      s.pendingRetry = none → ∀ e, wsStep s e = s) := by
  refine ⟨?_, ?_, ?_, ?_, ?_, ?_⟩
  · intro evs
    exact wsSteps_inv evs wsInit wsInit_inv
  · rintro ⟨flag, n, pc, pr, sk⟩ hflag hs0
    dsimp only at hflag hs0 ⊢
    subst hflag
    simp [wsStep, hs0]
  · rintro ⟨flag, n, pc, pr, sk⟩ d hpc
    dsimp only at hpc
    subst hpc
    simp [wsStep]
  · rintro ⟨flag, n, pc, pr, sk⟩ d hpc hpr
    dsimp only at hpc hpr ⊢
    subst hpc
    subst hpr
    by_cases hn : n + 1 < wsMaxAttempts <;> simp [wsStep, hn]
  · rintro ⟨flag, n, pc, pr, sk⟩ d hpc hpr hs0 hn
    dsimp only at hpc hpr hs0 hn
    subst hpc
    subst hpr
    subst hs0
    have hnlt : ¬ (n + 1 < wsMaxAttempts) := by omega
    simp [wsStep, hnlt]
  · rintro ⟨flag, n, pc, pr, sk⟩ hs0 hpc hpr e
    dsimp only at hs0 hpc hpr
    subst hs0
    subst hpc
    subst hpr
    cases e <;> simp [wsStep]

/-- Witness for the amended C8: from the startup state, a close event
schedules exactly one task with the base delay. -/
theorem reconnection_discipline_witness :
    (wsStep wsInit WsEvent.closeEvt).pendingClose =
      some (min (wsBaseDelay * 2 ^ wsInit.reconnectAttempts) 60000) :=
  reconnection_discipline_amended.2.1 wsInit rfl (by decide)

end KrakenBot
